import Mathlib

/-!
Shallow embedding of the PulsarTrack transaction-lifecycle tracker and
ledger-event broadcaster, together with proofs about its specification.

Sources embedded:
* `frontend/src/store/tx-store.ts` — the persistent transaction store
  (`addTransaction`, `updateTransaction`, `getTransaction`,
  `getPendingTransactions`, `clearOldTransactions`);
* `frontend/src/lib/tx-recovery.ts` — the reconciler
  (`checkPendingTransactions`, `pollTransaction`);
* `frontend/src/lib/soroban-client.ts` — the submitter (`callContract`);
* `backend/src/services/websocket-server.ts` — the upstream feed
  subscriber with exponential backoff (`scheduleReconnect`,
  `startLedgerStream`) and the fan-out broadcaster (`broadcast`);
* `frontend/src/hooks/useTxNotifications.ts` — the notifier.

Timestamps are milliseconds as `Int` (JavaScript `Date.now()`); the
float division in the 24-hour age check is modelled exactly over `ℚ`.
Opaque payloads (`xdr.ScVal` / `any` result values) are modelled by an
opaque integer stand-in.
-/

namespace PulsarTrack

/-- Opaque stand-in for the untyped result payloads (`any` / `xdr.ScVal`). -/
abbrev Payload := Int

/-- `scValToNative` decodes an opaque XDR value; modelled as the identity
on opaque payloads (the decoding itself is outside the core). -/
def scValToNative (p : Payload) : Payload := p

/-- `type TransactionStatus = "pending" | "success" | "failed"` -/
inductive TransactionStatus where
  | pending
  | success
  | failed
deriving DecidableEq, Repr

/-- `type TransactionType` — the closed enumeration of business operation
kinds from `tx-store.ts`. -/
inductive TransactionType where
  | campaign_create
  | campaign_fund
  | bid_place
  | payout
  | governance_vote
  | publisher_register
  | subscription
  | other
deriving DecidableEq, Repr

/-- `interface Transaction` from `tx-store.ts`. `result?` and `error?`
are optional fields (`none` = absent/undefined). -/
structure Transaction where
  txHash : String
  type : TransactionType
  status : TransactionStatus
  timestamp : Int
  description : String
  result : Option Payload
  error : Option String
deriving DecidableEq, Repr

/-- The argument of `addTransaction`: `Omit<Transaction, "timestamp">`. -/
structure NewTransaction where
  txHash : String
  type : TransactionType
  status : TransactionStatus
  description : String
  result : Option Payload
  error : Option String
deriving DecidableEq, Repr

/-- `Partial<Transaction>`, the `updates` argument of `updateTransaction`.
An outer `none` means the field is absent from the partial object; for the
optional fields `result`/`error` the inner `Option` is the field's own
nullability. -/
structure TransactionUpdate where
  txHash : Option String
  type : Option TransactionType
  status : Option TransactionStatus
  timestamp : Option Int
  description : Option String
  result : Option (Option Payload)
  error : Option (Option String)
deriving DecidableEq, Repr

/-- The empty partial update `{}`. -/
def TransactionUpdate.empty : TransactionUpdate :=
  ⟨none, none, none, none, none, none, none⟩

/-- The JavaScript spread `{ ...tx, ...updates }`: every field present in
`updates` overrides the corresponding field of `tx`. -/
def applyUpdate (tx : Transaction) (u : TransactionUpdate) : Transaction where
  txHash := u.txHash.getD tx.txHash
  type := u.type.getD tx.type
  status := u.status.getD tx.status
  timestamp := u.timestamp.getD tx.timestamp
  description := u.description.getD tx.description
  result := u.result.getD tx.result
  error := u.error.getD tx.error

/-- The store state: `transactions: Transaction[]` (newest first). -/
structure TransactionStore where
  transactions : List Transaction
deriving DecidableEq, Repr

/-- `addTransaction(tx)` prepends the new record with `timestamp: Date.now()`
(`now` is passed explicitly in the embedding). -/
def addTransaction (s : TransactionStore) (tx : NewTransaction) (now : Int) :
    TransactionStore :=
  ⟨{ txHash := tx.txHash, type := tx.type, status := tx.status,
     timestamp := now, description := tx.description,
     result := tx.result, error := tx.error } :: s.transactions⟩

/-- `updateTransaction(txHash, updates)` maps the spread over every record
whose hash matches; there is no error path. -/
def updateTransaction (s : TransactionStore) (txHash : String)
    (u : TransactionUpdate) : TransactionStore :=
  ⟨s.transactions.map (fun tx =>
    if tx.txHash = txHash then applyUpdate tx u else tx)⟩

/-- `getTransaction(txHash)`: first record with the given hash. -/
def getTransaction (s : TransactionStore) (txHash : String) :
    Option Transaction :=
  s.transactions.find? (fun tx => tx.txHash = txHash)

/-- `getPendingTransactions()`: all records with status `"pending"`. -/
def getPendingTransactions (s : TransactionStore) : List Transaction :=
  s.transactions.filter (fun tx => tx.status = .pending)

/-- `clearOldTransactions(olderThanDays = 30)`: keep a record iff its
timestamp is strictly newer than `now - olderThanDays·24·60·60·1000` or
its status is `"pending"`. -/
def clearOldTransactions (s : TransactionStore) (olderThanDays : Nat)
    (now : Int) : TransactionStore :=
  let cutoffTime : Int := now - (olderThanDays : Int) * (24 * 60 * 60 * 1000)
  ⟨s.transactions.filter (fun tx =>
    cutoffTime < tx.timestamp || tx.status = .pending)⟩

/-! ## Reconciler (`tx-recovery.ts`) -/

/-- Outcome of one `server.getTransaction(txHash)` call:
`rpc.Api.GetTransactionStatus` SUCCESS / FAILED / NOT_FOUND, or a thrown
transport error (which the source catches). -/
inductive GetTxResult where
  | success (returnValue : Option Payload)
  | failed
  | notFound
  | queryThrew (msg : String)
deriving DecidableEq, Repr

/-- `(Date.now() - tx.timestamp) / (1000 * 60 * 60)`, the record's age in
hours, as the exact rational the float computation compares against 24. -/
def ageInHours (now ts : Int) : ℚ :=
  ((now : ℚ) - (ts : ℚ)) / (1000 * 60 * 60)

/-- The body of one check in `checkPendingTransactions`: classify the
query result for the captured pending record `tx` and update the store.
A thrown query error is caught and logged, leaving the store unchanged. -/
def checkOne (getTx : String → GetTxResult) (now : Int)
    (s : TransactionStore) (tx : Transaction) : TransactionStore :=
  match getTx tx.txHash with
  | .success rv =>
      updateTransaction s tx.txHash
        { TransactionUpdate.empty with status := some .success, result := some rv }
  | .failed =>
      updateTransaction s tx.txHash
        { TransactionUpdate.empty with
            status := some .failed,
            error := some (some "Transaction failed on-chain") }
  | .notFound =>
      if 24 < ageInHours now tx.timestamp then
        updateTransaction s tx.txHash
          { TransactionUpdate.empty with
              status := some .failed,
              error := some (some "Transaction not found (may have expired)") }
      else s
  | .queryThrew _ => s

/-- `checkPendingTransactions()`: capture the pending records, then check
each one against upstream. The source runs the checks concurrently via
`Promise.allSettled`, but every check updates a distinct captured record
by its own hash through the store contract, modelled as a left fold. -/
def checkPendingTransactions (getTx : String → GetTxResult) (now : Int)
    (s : TransactionStore) : TransactionStore :=
  (getPendingTransactions s).foldl (checkOne getTx now) s

/-- The result object of `pollTransaction`:
`{ success: boolean; result?: any; error?: string }`. -/
structure PollOutcome where
  success : Bool
  result : Option (Option Payload)
  error : Option String
deriving DecidableEq, Repr

/-- A finished run of `pollTransaction`: its returned outcome, the store
it leaves behind, the number of poll attempts performed and the number of
store writes issued. -/
structure PollRun where
  outcome : PollOutcome
  store : TransactionStore
  attempts : Nat
  writes : Nat
deriving DecidableEq, Repr

/-- A query result is terminal when it exits the polling loop
(SUCCESS or FAILED); NOT_FOUND and thrown errors continue the loop. -/
def GetTxResult.isTerminal : GetTxResult → Bool
  | .success _ => true
  | .failed => true
  | .notFound => false
  | .queryThrew _ => false

/-- The polling loop of `pollTransaction` from attempt index `i` with
`remaining` attempts left. Each iteration sleeps, queries upstream, writes
a terminal result to the store and returns, or continues on NOT_FOUND and
on caught query errors; exhaustion returns the "Polling timeout" outcome
with no store write. -/
def pollFrom (getTx : Nat → GetTxResult) (txHash : String) :
    Nat → Nat → TransactionStore → PollRun
  | _, 0, s => ⟨⟨false, none, some "Polling timeout"⟩, s, 0, 0⟩
  | i, remaining + 1, s =>
    match getTx i with
    | .success rv =>
        ⟨⟨true, some rv, none⟩,
         updateTransaction s txHash
           { TransactionUpdate.empty with status := some .success, result := some rv },
         1, 1⟩
    | .failed =>
        ⟨⟨false, none, some "Transaction failed on-chain"⟩,
         updateTransaction s txHash
           { TransactionUpdate.empty with
               status := some .failed,
               error := some (some "Transaction failed on-chain") },
         1, 1⟩
    | .notFound =>
        let r := pollFrom getTx txHash (i + 1) remaining s
        ⟨r.outcome, r.store, r.attempts + 1, r.writes⟩
    | .queryThrew _ =>
        let r := pollFrom getTx txHash (i + 1) remaining s
        ⟨r.outcome, r.store, r.attempts + 1, r.writes⟩

/-- `pollTransaction(txHash, maxAttempts = 10, intervalMs = 3000)`; the
fixed sleep interval does not affect the observable run. -/
def pollTransaction (getTx : Nat → GetTxResult) (txHash : String)
    (maxAttempts : Nat) (s : TransactionStore) : PollRun :=
  pollFrom getTx txHash 0 maxAttempts s

/-! ## Submitter (`callContract` in `soroban-client.ts`) -/

/-- `server.simulateTransaction` outcome as the source discriminates it:
`rpc.Api.isSimulationError` or usable. -/
inductive SimResult where
  | simError (msg : String)
  | simOk
deriving DecidableEq, Repr

/-- `server.sendTransaction` outcome: `status === "ERROR"` or accepted
with a hash. -/
inductive SendResult where
  | sendError
  | sendOk (hash : String)
deriving DecidableEq, Repr

/-- The remote collaborators of one `callContract` run. `Except.error`
models a thrown exception carrying `err.message`. -/
structure ContractEnv where
  getAccount : Except String Unit
  simulate : SimResult
  sign : Except String Unit
  getTx : Nat → GetTxResult
  send : SendResult

/-- `ContractCallOptions` (the opaque `contractId`/`args` are irrelevant
to the lifecycle and omitted). -/
structure ContractCallOptions where
  method : String
  source : String
  txType : Option TransactionType
  description : Option String
deriving DecidableEq, Repr

/-- `ContractCallResult`:
`{ success: boolean; result?: any; txHash?: string; error?: string }`. -/
structure ContractCallResult where
  success : Bool
  result : Option (Option Payload)
  txHash : Option String
  error : Option String
deriving DecidableEq, Repr

/-- JavaScript `a || b` on an optional string: `undefined`, and the empty
string (falsy), fall through to the default. -/
def orFalsy (o : Option String) (fallback : String) : String :=
  match o with
  | some s => if s = "" then fallback else s
  | none => fallback

/-- Observable actions of one `callContract` run, in order. -/
inductive CallEvent where
  | addRecord (txHash : String)
  | pollAttempt (i : Nat)
  | writeUpdate (txHash : String)
deriving DecidableEq, Repr

/-- One `callContract` run's returned value, final store and action trace. -/
structure CallRun where
  result : ContractCallResult
  store : TransactionStore
  trace : List CallEvent
deriving DecidableEq, Repr

/-- The in-line polling loop of `callContract` (10 attempts, 3000 ms):
SUCCESS decodes the return value, writes it to the store and returns;
FAILED writes the failure and returns; NOT_FOUND continues; exhaustion
returns the polling-timeout result, `txHash` included. A thrown query
error escapes to the outer `catch`, which returns
`{ success: false, error: err?.message || "Unknown error" }` — without
the transaction hash. -/
def callPoll (env : ContractEnv) (txHash : String) (s : TransactionStore) :
    Nat → Nat → ContractCallResult × TransactionStore × List CallEvent
  | _, 0 =>
      (⟨false, none, some txHash, some "Transaction polling timeout"⟩, s, [])
  | i, remaining + 1 =>
    match env.getTx i with
    | .success rv =>
        let res := rv.map scValToNative
        (⟨true, some res, some txHash, none⟩,
         updateTransaction s txHash
           { TransactionUpdate.empty with
               status := some .success, result := some res },
         [.pollAttempt i, .writeUpdate txHash])
    | .failed =>
        (⟨false, none, some txHash, some "Transaction failed on-chain"⟩,
         updateTransaction s txHash
           { TransactionUpdate.empty with
               status := some .failed,
               error := some (some "Transaction failed on-chain") },
         [.pollAttempt i, .writeUpdate txHash])
    | .notFound =>
        let r := callPoll env txHash s (i + 1) remaining
        (r.1, r.2.1, .pollAttempt i :: r.2.2)
    | .queryThrew m =>
        (⟨false, none, none, some (orFalsy (some m) "Unknown error")⟩, s,
         [.pollAttempt i])

/-- `callContract(options)`: fetch the source account, simulate, sign,
submit; each failure before a hash is obtained returns an error result and
touches nothing. Once `sendTransaction` yields a hash, a Pending record is
added to the store before the polling loop starts. -/
def callContract (env : ContractEnv) (opts : ContractCallOptions)
    (now : Int) (s : TransactionStore) : CallRun :=
  match env.getAccount with
  | .error msg => ⟨⟨false, none, none, some (orFalsy (some msg) "Unknown error")⟩, s, []⟩
  | .ok _ =>
    match env.simulate with
    | .simError e =>
        ⟨⟨false, none, none, some ("Simulation failed: " ++ e)⟩, s, []⟩
    | .simOk =>
      match env.sign with
      | .error msg =>
          ⟨⟨false, none, none, some (orFalsy (some msg) "Unknown error")⟩, s, []⟩
      | .ok _ =>
        match env.send with
        | .sendError =>
            ⟨⟨false, none, none, some "Transaction submission failed"⟩, s, []⟩
        | .sendOk txHash =>
            let s1 := addTransaction s
              { txHash := txHash, type := opts.txType.getD .other,
                status := .pending,
                description := orFalsy opts.description
                  (opts.method ++ " on contract"),
                result := none, error := none } now
            let r := callPoll env txHash s1 0 10
            ⟨r.1, r.2.1, CallEvent.addRecord txHash :: r.2.2⟩

/-! ## Upstream feed subscriber (`websocket-server.ts`) -/

/-- `INITIAL_BACKOFF_MS` -/
def INITIAL_BACKOFF_MS : Nat := 1000

/-- `MAX_BACKOFF_MS` -/
def MAX_BACKOFF_MS : Nat := 30000

/-- The module-level mutable state of the reconnect logic:
`currentBackoff` and whether `reconnectTimer` is set. -/
structure FeedState where
  currentBackoff : Nat
  reconnectTimerPending : Bool
deriving DecidableEq, Repr

/-- State at module load. -/
def initFeedState : FeedState := ⟨INITIAL_BACKOFF_MS, false⟩

/-- Inputs driving the reconnect state machine: a streamed ledger message,
a stream error, and the reconnect timer firing. -/
inductive FeedInput where
  | ledgerEvent
  | streamError
  | timerFire
deriving DecidableEq, Repr

/-- Events the subscriber broadcasts downstream. -/
inductive WsEvent where
  | ledgerClosed
  | reconnecting (retryMs : Nat)
  | reconnected
deriving DecidableEq, Repr

/-- One transition of the reconnect state machine, with the events it
broadcasts:
* a streamed ledger message resets `currentBackoff` and broadcasts
  `LEDGER_CLOSED`;
* a stream error runs `scheduleReconnect`: if a timer is already pending
  it returns at once, otherwise it broadcasts `reconnecting` with the
  current backoff and arms the timer;
* the timer firing clears the timer, restarts the stream, broadcasts
  `reconnected` and doubles the backoff up to `MAX_BACKOFF_MS` (a timer
  can only fire while armed). -/
def stepFeed (s : FeedState) : FeedInput → FeedState × List WsEvent
  | .ledgerEvent =>
      ({ s with currentBackoff := INITIAL_BACKOFF_MS }, [.ledgerClosed])
  | .streamError =>
      if s.reconnectTimerPending then (s, [])
      else ({ s with reconnectTimerPending := true },
            [.reconnecting s.currentBackoff])
  | .timerFire =>
      if s.reconnectTimerPending then
        (⟨min (s.currentBackoff * 2) MAX_BACKOFF_MS, false⟩, [.reconnected])
      else (s, [])

/-- Run the state machine over a list of inputs, collecting all
broadcast events in order. -/
def runFeed (s : FeedState) : List FeedInput → FeedState × List WsEvent
  | [] => (s, [])
  | inp :: rest =>
      let r := stepFeed s inp
      let r2 := runFeed r.1 rest
      (r2.1, r.2 ++ r2.2)

/-- `n` failure/reconnect cycles: each one is a stream error followed by
the armed timer firing. -/
def failCycles : Nat → List FeedInput
  | 0 => []
  | n + 1 => failCycles n ++ [.streamError, .timerFire]

/-- `k` consecutive stream failures with no intervening ledger event:
`k - 1` completed failure/reconnect cycles and then the `k`-th failure. -/
def failTrace (k : Nat) : List FeedInput :=
  failCycles (k - 1) ++ [.streamError]

/-- The `retryMs` values announced by `reconnecting` events, in order. -/
def announcedDelays (evs : List WsEvent) : List Nat :=
  evs.filterMap (fun e =>
    match e with
    | .reconnecting d => some d
    | _ => none)

/-! ## Fan-out broadcaster (`websocket-server.ts`) -/

/-- A `PulsarEvent` envelope `{ type, payload, timestamp }`; the payload
is carried as its JSON text. -/
structure PulsarEvent where
  type : String
  payload : String
  timestamp : Int
deriving DecidableEq, Repr

/-- `JSON.stringify(event)` — the envelope's serialized form, computed
once per broadcast. -/
def serializeEvent (e : PulsarEvent) : String :=
  "\x7b\"type\":\"" ++ e.type ++ "\",\"payload\":" ++ e.payload ++
    ",\"timestamp\":" ++ toString e.timestamp ++ "\x7d"

/-- A connected downstream subscriber: its transport handle (an id here),
whether `readyState === WebSocket.OPEN`, and whether a write to it
succeeds (a failed write emits the socket's `error` event). -/
structure WsClient where
  id : Nat
  readyStateOpen : Bool
  sendOk : Bool
deriving DecidableEq, Repr

/-- The outcome of `broadcast(event)` over the module-level `clients`
set: the serialized message, the deliveries made, and the client set
after the per-connection `error` handlers ran. -/
structure BroadcastRun where
  message : String
  delivered : List (Nat × String)
  clients : List WsClient
deriving DecidableEq, Repr

/-- `broadcast(event)`: serialize once, write to every client whose
`readyState` is OPEN. `ws.send` does not throw into the loop, so every
open client is attempted independently; a client whose write fails emits
`error`, whose handler removes it from `clients`. Closed clients are
skipped and kept. -/
def broadcast (clients : List WsClient) (event : PulsarEvent) :
    BroadcastRun :=
  let msg := serializeEvent event
  { message := msg,
    delivered := (clients.filter (fun c => c.readyStateOpen && c.sendOk)).map
      (fun c => (c.id, msg)),
    clients := clients.filter (fun c => !(c.readyStateOpen && !c.sendOk)) }

/-! ## Notifier (`useTxNotifications.ts`) -/

/-- A toast/browser notification: its kind (`"success"` or `"error"`)
and message. -/
structure TxNotification where
  kind : String
  message : String
deriving DecidableEq, Repr

/-- The `previousTxsRef` map from transaction hash to last observed
status, as an association list (later entries shadow earlier ones). -/
def NotifierMap := List (String × TransactionStatus)

/-- Set a hash's last-observed status (`Map.set`). -/
def NotifierMap.set (m : NotifierMap) (h : String)
    (st : TransactionStatus) : NotifierMap :=
  (h, st) :: m

/-- Read a hash's last-observed status (`Map.get`). -/
def NotifierMap.get (m : NotifierMap) (h : String) :
    Option TransactionStatus :=
  (m.find? (fun p => p.1 = h)).map (fun p => p.2)

/-- The notification the effect emits for a completed transaction. -/
def mkNotification (tx : Transaction) : List TxNotification :=
  match tx.status with
  | .success => [⟨"success", "Transaction completed: " ++ tx.description⟩]
  | .failed => [⟨"error", "Transaction failed: " ++ tx.description⟩]
  | .pending => []

/-- The body of the `useEffect` in `useTxNotifications`: walk the store's
transactions; when the previously observed status was `"pending"` and the
current one differs, emit one notification; then record the current
status as last observed. -/
def notifyStep (acc : List TxNotification × NotifierMap)
    (tx : Transaction) : List TxNotification × NotifierMap :=
  let previousStatus := acc.2.get tx.txHash
  let notifs :=
    if previousStatus = some .pending ∧ tx.status ≠ .pending then
      acc.1 ++ mkNotification tx
    else acc.1
  (notifs, acc.2.set tx.txHash tx.status)

/-- One run of the effect over a store snapshot, from a given
last-observed map: the notifications emitted and the updated map. -/
def notifyScan (prev : NotifierMap) (txs : List Transaction) :
    List TxNotification × NotifierMap :=
  txs.foldl notifyStep ([], prev)

/-! ## Helper lemmas about the store -/

theorem applyUpdate_txHash (tx : Transaction) (u : TransactionUpdate)
    (hu : u.txHash = none) : (applyUpdate tx u).txHash = tx.txHash := by
  simp [applyUpdate, hu]

theorem applyUpdate_status_self (tx : Transaction) :
    applyUpdate tx { TransactionUpdate.empty with status := some tx.status } = tx := by
  cases tx
  simp [applyUpdate, TransactionUpdate.empty]

theorem find?_update_list (l : List Transaction) (h h' : String)
    (u : TransactionUpdate) (hu : u.txHash = none) :
    (l.map (fun tx => if tx.txHash = h then applyUpdate tx u else tx)).find?
        (fun tx => tx.txHash = h') =
      (l.find? (fun tx => tx.txHash = h')).map
        (fun tx => if tx.txHash = h then applyUpdate tx u else tx) := by
  have hfun :
      ((fun tx : Transaction => decide (tx.txHash = h')) ∘
        (fun tx => if tx.txHash = h then applyUpdate tx u else tx)) =
      (fun tx : Transaction => decide (tx.txHash = h')) := by
    funext tx
    by_cases hth : tx.txHash = h
    · simp [Function.comp, hth, applyUpdate_txHash tx u hu]
    · simp [Function.comp, hth]
  rw [List.find?_map, hfun]

theorem getTransaction_update (s : TransactionStore) (h h' : String)
    (u : TransactionUpdate) (hu : u.txHash = none) :
    getTransaction (updateTransaction s h u) h' =
      (getTransaction s h').map
        (fun tx => if tx.txHash = h then applyUpdate tx u else tx) := by
  unfold getTransaction updateTransaction
  exact find?_update_list s.transactions h h' u hu

theorem map_update_id (h : String) (u : TransactionUpdate) :
    ∀ l : List Transaction, (∀ tx ∈ l, tx.txHash ≠ h) →
      l.map (fun tx => if tx.txHash = h then applyUpdate tx u else tx) = l := by
  intro l
  induction l with
  | nil => intro _; rfl
  | cons a t ih =>
    intro habs
    have ha : a.txHash ≠ h := habs a (List.mem_cons_self a t)
    have ht : ∀ tx ∈ t, tx.txHash ≠ h := fun tx hm =>
      habs tx (List.mem_cons_of_mem a hm)
    simp [ha, ih ht]

theorem updateTransaction_absent (s : TransactionStore) (h : String)
    (u : TransactionUpdate) (habs : ∀ tx ∈ s.transactions, tx.txHash ≠ h) :
    updateTransaction s h u = s := by
  unfold updateTransaction
  cases s with
  | mk l =>
    congr 1
    exact map_update_id h u l habs

theorem mem_updateTransaction_of_ne (s : TransactionStore) (h : String)
    (u : TransactionUpdate) (tx : Transaction) (hmem : tx ∈ s.transactions)
    (hne : tx.txHash ≠ h) : tx ∈ (updateTransaction s h u).transactions := by
  unfold updateTransaction
  exact List.mem_map.mpr ⟨tx, hmem, by simp [hne]⟩

theorem updateTransaction_same_status (s : TransactionStore) (h : String)
    (st : TransactionStatus)
    (hsame : ∀ tx ∈ s.transactions, tx.txHash = h → tx.status = st) :
    updateTransaction s h
      { TransactionUpdate.empty with status := some st } = s := by
  unfold updateTransaction
  cases s with
  | mk l =>
    congr 1
    have hpt : ∀ tx ∈ l,
        (if tx.txHash = h then
          applyUpdate tx { TransactionUpdate.empty with status := some st }
         else tx) = tx := by
      intro tx hm
      by_cases hth : tx.txHash = h
      · have hst : tx.status = st := hsame tx hm hth
        rw [if_pos hth, ← hst, applyUpdate_status_self]
      · rw [if_neg hth]
    rw [List.map_congr_left hpt]
    simp

/-! ## C2 — `update` error behavior -/

/-- C2, counterexample. The claim states that updating an already
resolved record with a conflicting terminal status fails with
`InvalidTransition`. In the code `updateTransaction` has no error path:
on a store holding a record `"h1"` already resolved as Succeeded, an
update to Failed is applied silently, changing the record's status and
leaving no trace of an error. (Likewise, an update for an id absent from
the store is a silent no-op, not a `NotFound` failure.) -/
theorem C2_update_counterexample :
    updateTransaction ⟨[⟨"h1", .other, .success, 0, "d", some 1, none⟩]⟩ "h1"
        { TransactionUpdate.empty with
            status := some .failed, error := some (some "conflict") } =
      ⟨[⟨"h1", .other, .failed, 0, "d", some 1, some "conflict"⟩]⟩ := by
  rfl

/-- C2, amended: `updateTransaction` never signals an error. Calling it
on an id absent from the store is a silent no-op (the store is returned
unchanged, with no `NotFound`); repeating the identical terminal status
on a resolved record is a no-op; and any other update — including one
carrying a conflicting terminal status — is applied unconditionally to
the matching record (overwriting it, with no `InvalidTransition`). -/
theorem C2_update_never_fails :
    (∀ (s : TransactionStore) (h : String) (u : TransactionUpdate),
      (∀ tx ∈ s.transactions, tx.txHash ≠ h) → updateTransaction s h u = s) ∧
    (∀ (s : TransactionStore) (h : String) (st : TransactionStatus),
      (∀ tx ∈ s.transactions, tx.txHash = h → tx.status = st) →
      updateTransaction s h
        { TransactionUpdate.empty with status := some st } = s) ∧
    (∀ (s : TransactionStore) (h : String) (u : TransactionUpdate)
      (tx : Transaction), u.txHash = none → getTransaction s h = some tx →
      getTransaction (updateTransaction s h u) h = some (applyUpdate tx u)) := by
  refine ⟨updateTransaction_absent, updateTransaction_same_status, ?_⟩
  intro s h u tx hu hfind
  rw [getTransaction_update s h h u hu, hfind]
  have hth : tx.txHash = h := by
    have := List.find?_some hfind
    simpa using this
  simp [hth]

/-- C2 witness: the amended theorem applied at concrete inputs — an
absent id leaves a one-record store unchanged, a repeated Succeeded
status is a no-op, and a conflicting update overwrites. -/
theorem C2_update_never_fails_witness :
    (updateTransaction ⟨[⟨"a", .other, .success, 0, "d", none, none⟩]⟩ "b"
        { TransactionUpdate.empty with status := some .failed } =
      ⟨[⟨"a", .other, .success, 0, "d", none, none⟩]⟩) ∧
    (updateTransaction ⟨[⟨"a", .other, .success, 0, "d", none, none⟩]⟩ "a"
        { TransactionUpdate.empty with status := some .success } =
      ⟨[⟨"a", .other, .success, 0, "d", none, none⟩]⟩) ∧
    getTransaction
        (updateTransaction ⟨[⟨"a", .other, .success, 0, "d", none, none⟩]⟩ "a"
          { TransactionUpdate.empty with status := some .failed })
        "a" =
      some (applyUpdate ⟨"a", .other, .success, 0, "d", none, none⟩
        { TransactionUpdate.empty with status := some .failed }) := by
  refine ⟨?_, ?_, ?_⟩
  · exact C2_update_never_fails.1 _ "b" _ (by decide)
  · exact C2_update_never_fails.2.1 _ "a" .success (by decide)
  · exact C2_update_never_fails.2.2 _ "a" _
      ⟨"a", .other, .success, 0, "d", none, none⟩ rfl rfl

/-! ## C3 — status monotonicity -/

/-- C3, counterexample. The claim states that once a record is Succeeded
its status never changes again. Starting from the empty store: add a
Pending record `"h1"`, update it to Succeeded, then update it to Failed —
the final status is Failed, a Succeeded→Failed reversal performed by the
store operations themselves. -/
theorem C3_monotonic_counterexample :
    (getTransaction
      (updateTransaction
        (updateTransaction
          (addTransaction ⟨[]⟩ ⟨"h1", .other, .pending, "d", none, none⟩ 0)
          "h1" { TransactionUpdate.empty with status := some .success })
        "h1" { TransactionUpdate.empty with status := some .failed })
      "h1").map (fun tx => tx.status) = some .failed ∧
    (getTransaction
      (updateTransaction
        (addTransaction ⟨[]⟩ ⟨"h1", .other, .pending, "d", none, none⟩ 0)
        "h1" { TransactionUpdate.empty with status := some .success })
      "h1").map (fun tx => tx.status) = some .success := by
  exact ⟨rfl, rfl⟩

/-- C3, amended: the store operations themselves do not enforce
monotonicity. What does hold: `addTransaction` leaves every existing
record in place, `clearOldTransactions` only ever deletes whole records
(every surviving record is one of the originals, unmodified), and
`updateTransaction` leaves every record with a different id untouched —
so a resolved record's status or outcome can only change through an
`updateTransaction` aimed at that very id carrying a different value. -/
theorem C3_frame_conditions :
    (∀ (s : TransactionStore) (ntx : NewTransaction) (now : Int)
      (tx : Transaction), tx ∈ s.transactions →
      tx ∈ (addTransaction s ntx now).transactions) ∧
    (∀ (s : TransactionStore) (d : Nat) (now : Int) (tx : Transaction),
      tx ∈ (clearOldTransactions s d now).transactions →
      tx ∈ s.transactions) ∧
    (∀ (s : TransactionStore) (h : String) (u : TransactionUpdate)
      (tx : Transaction), tx ∈ s.transactions → tx.txHash ≠ h →
      tx ∈ (updateTransaction s h u).transactions) := by
  refine ⟨?_, ?_, ?_⟩
  · intro s ntx now tx hmem
    exact List.mem_cons_of_mem _ hmem
  · intro s d now tx hmem
    exact List.mem_of_mem_filter hmem
  · intro s h u tx hmem hne
    exact mem_updateTransaction_of_ne s h u tx hmem hne

/-- C3 witness: the frame conditions applied at concrete inputs. -/
theorem C3_frame_conditions_witness :
    (⟨"a", .other, .success, 0, "d", none, none⟩ : Transaction) ∈
      (addTransaction ⟨[⟨"a", .other, .success, 0, "d", none, none⟩]⟩
        ⟨"b", .other, .pending, "d2", none, none⟩ 5).transactions ∧
    (⟨"a", .other, .success, 0, "d", none, none⟩ : Transaction) ∈
      (updateTransaction ⟨[⟨"a", .other, .success, 0, "d", none, none⟩]⟩ "b"
        { TransactionUpdate.empty with status := some .failed }).transactions := by
  constructor
  · exact C3_frame_conditions.1 _ _ 5 _ (by decide)
  · exact C3_frame_conditions.2.2 _ "b" _ _ (by decide) (by decide)

/-! ## C8 — purge behavior -/

/-- C8, counterexample. The claim states the purge removes only records
strictly older than `now − D`. With `D = 0` days and `now = 0`, a
resolved record whose timestamp is exactly the cutoff `now − D = 0` — so
not older than it — is removed, because the filter keeps only records
with `timestamp > cutoff`. -/
theorem C8_purge_counterexample :
    clearOldTransactions ⟨[⟨"h1", .other, .success, 0, "d", none, none⟩]⟩
        0 0 = ⟨[]⟩ ∧
    ¬ ((0 : Int) < 0 - (0 : Int) * (24 * 60 * 60 * 1000)) := by
  exact ⟨rfl, by norm_num⟩

/-- C8, amended: `clearOldTransactions(D)` removes only records that are
resolved (not Pending) and whose timestamp is at or before the cutoff
`now − D·24·60·60·1000` (boundary included); it never removes a Pending
record, for any `D` including `D = 0`, and it never modifies a surviving
record. -/
theorem C8_purge_law :
    (∀ (s : TransactionStore) (d : Nat) (now : Int) (tx : Transaction),
      tx ∈ s.transactions → tx.status = .pending →
      tx ∈ (clearOldTransactions s d now).transactions) ∧
    (∀ (s : TransactionStore) (d : Nat) (now : Int) (tx : Transaction),
      tx ∈ (clearOldTransactions s d now).transactions →
      tx ∈ s.transactions) ∧
    (∀ (s : TransactionStore) (d : Nat) (now : Int) (tx : Transaction),
      tx ∈ s.transactions →
      tx ∉ (clearOldTransactions s d now).transactions →
      tx.status ≠ .pending ∧
        tx.timestamp ≤ now - (d : Int) * (24 * 60 * 60 * 1000)) := by
  refine ⟨?_, ?_, ?_⟩
  · intro s d now tx hmem hp
    unfold clearOldTransactions
    exact List.mem_filter.mpr ⟨hmem, by simp [hp]⟩
  · intro s d now tx hmem
    exact List.mem_of_mem_filter hmem
  · intro s d now tx hmem hnot
    unfold clearOldTransactions at hnot
    have hpred :
        ¬ ((decide (now - (d : Int) * (24 * 60 * 60 * 1000) < tx.timestamp) ||
            decide (tx.status = TransactionStatus.pending)) = true) := by
      intro hpt
      exact hnot (List.mem_filter.mpr ⟨hmem, hpt⟩)
    simp only [Bool.or_eq_true, decide_eq_true_eq, not_or] at hpred
    exact ⟨hpred.2, by omega⟩

/-- C8 witness: a Pending record with an ancient timestamp survives a
purge with `D = 0`. -/
theorem C8_purge_law_witness :
    (⟨"p", .other, .pending, -100000000000, "d", none, none⟩ : Transaction) ∈
      (clearOldTransactions
        ⟨[⟨"p", .other, .pending, -100000000000, "d", none, none⟩]⟩
        0 0).transactions := by
  exact C8_purge_law.1 _ 0 0 _ (by decide) rfl

/-! ## Helper lemmas about the reconnect state machine -/

theorem runFeed_append (l1 l2 : List FeedInput) :
    ∀ s : FeedState,
      runFeed s (l1 ++ l2) =
        ((runFeed (runFeed s l1).1 l2).1,
         (runFeed s l1).2 ++ (runFeed (runFeed s l1).1 l2).2) := by
  induction l1 with
  | nil => intro s; simp [runFeed]
  | cons a t ih =>
    intro s
    simp [runFeed, ih, List.append_assoc]

theorem min_double_min (a : Nat) :
    min (min a 30000 * 2) 30000 = min (a * 2) 30000 := by
  rcases Nat.le_total a 30000 with hle | hle
  · rw [Nat.min_eq_left hle]
  · rw [Nat.min_eq_right hle]
    have h2 : 30000 * 2 ≤ a * 2 := by omega
    rw [Nat.min_eq_right (by omega), Nat.min_eq_right (by omega)]

theorem runFeed_failCycles (n : Nat) :
    (runFeed initFeedState (failCycles n)).1 =
        ⟨min (1000 * 2 ^ n) 30000, false⟩ ∧
      announcedDelays (runFeed initFeedState (failCycles n)).2 =
        (List.range n).map (fun j => min (1000 * 2 ^ j) 30000) := by
  induction n with
  | zero =>
    constructor
    · simp [runFeed, failCycles, initFeedState, INITIAL_BACKOFF_MS]
    · simp [runFeed, failCycles, announcedDelays]
  | succ n ih =>
    have hcyc : failCycles (n + 1) =
        failCycles n ++ [.streamError, .timerFire] := rfl
    rw [hcyc, runFeed_append]
    rw [ih.1]
    have hstep :
        runFeed (⟨min (1000 * 2 ^ n) 30000, false⟩ : FeedState)
            [.streamError, .timerFire] =
          (⟨min (min (1000 * 2 ^ n) 30000 * 2) 30000, false⟩,
           [.reconnecting (min (1000 * 2 ^ n) 30000), .reconnected]) := by
      simp [runFeed, stepFeed, MAX_BACKOFF_MS]
    rw [hstep]
    constructor
    · have := min_double_min (1000 * 2 ^ n)
      simp only [pow_succ, ← Nat.mul_assoc]
      rw [this]
    · have ih2 := ih.2
      simp only [announcedDelays] at ih2 ⊢
      rw [List.filterMap_append, ih2, List.range_succ, List.map_append]
      simp

/-! ## C1 — exponential backoff law -/

/-- C1: for `k` consecutive stream failures with no intervening ledger
event (each earlier failure's reconnect timer having fired and the
restarted stream having failed again), the sequence of delays announced
by the `reconnecting` events is exactly
`[min(D0·2^0, Dmax), …, min(D0·2^(k-1), Dmax)]` with `D0 = 1000` ms and
`Dmax = 30000` ms — in particular the `k`-th announced delay is
`min(D0·2^(k-1), Dmax)`, and no failed reconnect ever resets an
announced delay back to `D0`. Moreover a single successfully streamed
ledger event resets `currentBackoff` to `D0` from any state. -/
theorem C1_backoff_law :
    (∀ k : Nat, 1 ≤ k →
      announcedDelays (runFeed initFeedState (failTrace k)).2 =
        (List.range k).map
          (fun j => min (INITIAL_BACKOFF_MS * 2 ^ j) MAX_BACKOFF_MS)) ∧
    (∀ s : FeedState,
      (stepFeed s .ledgerEvent).1.currentBackoff = INITIAL_BACKOFF_MS) := by
  constructor
  · intro k hk
    have hsplit : failTrace k = failCycles (k - 1) ++ [.streamError] := rfl
    rw [hsplit, runFeed_append]
    have hc := runFeed_failCycles (k - 1)
    rw [hc.1]
    have hlast :
        runFeed (⟨min (1000 * 2 ^ (k - 1)) 30000, false⟩ : FeedState)
            [.streamError] =
          (⟨min (1000 * 2 ^ (k - 1)) 30000, true⟩,
           [.reconnecting (min (1000 * 2 ^ (k - 1)) 30000)]) := by
      simp [runFeed, stepFeed]
    rw [hlast]
    have ih2 := hc.2
    simp only [announcedDelays] at ih2 ⊢
    rw [List.filterMap_append, ih2]
    have hrange : k = (k - 1) + 1 := by omega
    rw [hrange, List.range_succ, List.map_append]
    simp [INITIAL_BACKOFF_MS, MAX_BACKOFF_MS]
  · intro s
    simp [stepFeed]

/-- C1 witness: three consecutive failures announce 1000, 2000, 4000 ms
(the spec's own scenario), and a streamed ledger event in a state with
`currentBackoff = 16000` resets it to 1000 ms. -/
theorem C1_backoff_law_witness :
    announcedDelays (runFeed initFeedState (failTrace 3)).2 =
        [1000, 2000, 4000] ∧
    (stepFeed ⟨16000, false⟩ .ledgerEvent).1.currentBackoff = 1000 := by
  constructor
  · rw [C1_backoff_law.1 3 (by norm_num)]
    rfl
  · exact C1_backoff_law.2 ⟨16000, false⟩

/-! ## C10 — reconnect coalescing -/

/-- C10: while a reconnect timer is pending, a further stream error is
coalesced by the `if (reconnectTimer) return` guard of
`scheduleReconnect`: the state (including `currentBackoff`) is unchanged
and no event is broadcast, so at most one reconnect is ever scheduled at
a time. -/
theorem C10_error_coalesced (s : FeedState)
    (hpending : s.reconnectTimerPending = true) :
    stepFeed s .streamError = (s, []) := by
  simp [stepFeed, hpending]

/-- C10 witness: a stream error arriving while the timer is pending at
backoff 4000 ms changes nothing and broadcasts nothing. -/
theorem C10_error_coalesced_witness :
    stepFeed ⟨4000, true⟩ .streamError = (⟨4000, true⟩, []) :=
  C10_error_coalesced ⟨4000, true⟩ rfl

/-! ## C7 — fan-out failure isolation -/

/-- C7: a failing subscriber never prevents or aborts delivery to the
rest. Every connected (OPEN) subscriber whose write succeeds receives
the serialized event regardless of how many other subscribers fail;
every OPEN subscriber whose write fails is removed from the subscriber
set by its `error` handler; and every subscriber that did not fail a
write stays in the set. With `N` subscribers of which exactly one fails,
this delivers to the `N − 1` others and removes the failing one. -/
theorem C7_fanout_isolation :
    (∀ (clients : List WsClient) (e : PulsarEvent) (c : WsClient),
      c ∈ clients → c.readyStateOpen = true → c.sendOk = true →
      (c.id, serializeEvent e) ∈ (broadcast clients e).delivered) ∧
    (∀ (clients : List WsClient) (e : PulsarEvent) (c : WsClient),
      c ∈ clients → c.readyStateOpen = true → c.sendOk = false →
      c ∉ (broadcast clients e).clients) ∧
    (∀ (clients : List WsClient) (e : PulsarEvent) (c : WsClient),
      c ∈ clients → (c.sendOk = true ∨ c.readyStateOpen = false) →
      c ∈ (broadcast clients e).clients) := by
  refine ⟨?_, ?_, ?_⟩
  · intro clients e c hmem hopen hok
    exact List.mem_map.mpr
      ⟨c, List.mem_filter.mpr ⟨hmem, by simp [hopen, hok]⟩, rfl⟩
  · intro clients e c hmem hopen hfail hc
    have := (List.mem_filter.mp hc).2
    simp [hopen, hfail] at this
  · intro clients e c hmem hkeep
    refine List.mem_filter.mpr ⟨hmem, ?_⟩
    rcases hkeep with hok | hclosed
    · simp [hok]
    · simp [hclosed]

/-- C7 witness: three OPEN subscribers, subscriber 2 failing on write —
subscribers 1 and 3 both receive the serialized event, subscriber 2 is
removed, subscriber 1 stays. -/
theorem C7_fanout_isolation_witness :
    ((1 : Nat), serializeEvent ⟨"LEDGER_CLOSED", "7", 0⟩) ∈
      (broadcast [⟨1, true, true⟩, ⟨2, true, false⟩, ⟨3, true, true⟩]
        ⟨"LEDGER_CLOSED", "7", 0⟩).delivered ∧
    ((3 : Nat), serializeEvent ⟨"LEDGER_CLOSED", "7", 0⟩) ∈
      (broadcast [⟨1, true, true⟩, ⟨2, true, false⟩, ⟨3, true, true⟩]
        ⟨"LEDGER_CLOSED", "7", 0⟩).delivered ∧
    (⟨2, true, false⟩ : WsClient) ∉
      (broadcast [⟨1, true, true⟩, ⟨2, true, false⟩, ⟨3, true, true⟩]
        ⟨"LEDGER_CLOSED", "7", 0⟩).clients ∧
    (⟨1, true, true⟩ : WsClient) ∈
      (broadcast [⟨1, true, true⟩, ⟨2, true, false⟩, ⟨3, true, true⟩]
        ⟨"LEDGER_CLOSED", "7", 0⟩).clients := by
  refine ⟨?_, ?_, ?_, ?_⟩
  · exact C7_fanout_isolation.1 _ _ ⟨1, true, true⟩ (by decide) rfl rfl
  · exact C7_fanout_isolation.1 _ _ ⟨3, true, true⟩ (by decide) rfl rfl
  · exact C7_fanout_isolation.2.1 _ _ ⟨2, true, false⟩ (by decide) rfl rfl
  · exact C7_fanout_isolation.2.2 _ _ ⟨1, true, true⟩ (by decide) (Or.inl rfl)

/-! ## Helper lemmas about the polling loop -/

theorem getTransaction_update_self (s : TransactionStore) (h : String)
    (u : TransactionUpdate) (hu : u.txHash = none) (tx : Transaction)
    (hfind : getTransaction s h = some tx) :
    getTransaction (updateTransaction s h u) h = some (applyUpdate tx u) := by
  rw [getTransaction_update s h h u hu, hfind]
  have hth : tx.txHash = h := by
    have := List.find?_some hfind
    simpa using this
  simp [hth]

theorem pollFrom_success (getTx : Nat → GetTxResult) (h : String)
    (rv : Option Payload) :
    ∀ (d i rem : Nat) (s : TransactionStore),
      (∀ j, j < d → (getTx (i + j)).isTerminal = false) →
      getTx (i + d) = .success rv → d < rem →
      pollFrom getTx h i rem s =
        ⟨⟨true, some rv, none⟩,
         updateTransaction s h
           { TransactionUpdate.empty with
               status := some .success, result := some rv },
         d + 1, 1⟩ := by
  intro d
  induction d with
  | zero =>
    intro i rem s _ hsucc hlt
    cases rem with
    | zero => omega
    | succ r =>
      have : getTx i = .success rv := by simpa using hsucc
      simp [pollFrom, this]
  | succ d ih =>
    intro i rem s hpre hsucc hlt
    cases rem with
    | zero => omega
    | succ r =>
      have h0 : (getTx i).isTerminal = false := by
        have := hpre 0 (by omega)
        simpa using this
      have hrest :
          pollFrom getTx h (i + 1) r s =
            ⟨⟨true, some rv, none⟩,
             updateTransaction s h
               { TransactionUpdate.empty with
                   status := some .success, result := some rv },
             d + 1, 1⟩ := by
        apply ih (i + 1) r s
        · intro j hj
          have := hpre (j + 1) (by omega)
          simpa [Nat.add_assoc, Nat.add_comm 1 j] using this
        · have : i + 1 + d = i + (d + 1) := by omega
          rw [this]
          exact hsucc
        · omega
      cases hg : getTx i with
      | success rv => rw [hg] at h0; simp [GetTxResult.isTerminal] at h0
      | failed => rw [hg] at h0; simp [GetTxResult.isTerminal] at h0
      | notFound => simp [pollFrom, hg, hrest]
      | queryThrew m => simp [pollFrom, hg, hrest]

theorem pollFrom_exhaust (getTx : Nat → GetTxResult) (h : String) :
    ∀ (rem i : Nat) (s : TransactionStore),
      (∀ j, j < rem → (getTx (i + j)).isTerminal = false) →
      pollFrom getTx h i rem s =
        ⟨⟨false, none, some "Polling timeout"⟩, s, rem, 0⟩ := by
  intro rem
  induction rem with
  | zero => intro i s _; rfl
  | succ r ih =>
    intro i s hpre
    have h0 : (getTx i).isTerminal = false := by
      have := hpre 0 (by omega)
      simpa using this
    have hrest := ih (i + 1) s (fun j hj => by
      have := hpre (j + 1) (by omega)
      simpa [Nat.add_assoc, Nat.add_comm 1 j] using this)
    cases hg : getTx i with
    | success rv => rw [hg] at h0; simp [GetTxResult.isTerminal] at h0
    | failed => rw [hg] at h0; simp [GetTxResult.isTerminal] at h0
    | notFound => simp [pollFrom, hg, hrest]
    | queryThrew m => simp [pollFrom, hg, hrest]

/-! ## C5 — active poll -/

/-- C5: if the upstream query first returns Succeeded on attempt
`k ≤ M` (all earlier attempts non-terminal), `pollTransaction` performs
exactly `k` attempts, issues exactly one store write — the update that
takes the record to Succeeded with the returned value — and stops; if a
record with the polled id is Pending in the store, its status after the
run is Succeeded. If all `M` attempts exhaust without a terminal result,
the loop performs no store write at all, leaves the store (and hence the
Pending record) untouched, and returns the distinct
`"Polling timeout"` outcome with `success: false`. -/
theorem C5_poll_law :
    (∀ (getTx : Nat → GetTxResult) (h : String) (M k : Nat)
      (rv : Option Payload) (s : TransactionStore),
      1 ≤ k → k ≤ M →
      (∀ j, j < k - 1 → (getTx j).isTerminal = false) →
      getTx (k - 1) = .success rv →
      pollTransaction getTx h M s =
        ⟨⟨true, some rv, none⟩,
         updateTransaction s h
           { TransactionUpdate.empty with
               status := some .success, result := some rv },
         k, 1⟩ ∧
      (∀ tx : Transaction, getTransaction s h = some tx →
        ((getTransaction (pollTransaction getTx h M s).store h).map
          (fun r => r.status)) = some .success)) ∧
    (∀ (getTx : Nat → GetTxResult) (h : String) (M : Nat)
      (s : TransactionStore),
      (∀ j, j < M → (getTx j).isTerminal = false) →
      pollTransaction getTx h M s =
        ⟨⟨false, none, some "Polling timeout"⟩, s, M, 0⟩) := by
  constructor
  · intro getTx h M k rv s hk1 hkM hpre hsucc
    have hrun :
        pollTransaction getTx h M s =
          ⟨⟨true, some rv, none⟩,
           updateTransaction s h
             { TransactionUpdate.empty with
                 status := some .success, result := some rv },
           k, 1⟩ := by
      have := pollFrom_success getTx h rv (k - 1) 0 M s
        (fun j hj => by simpa using hpre j hj)
        (by simpa using hsucc) (by omega)
      unfold pollTransaction
      rw [this]
      congr 1
      omega
    refine ⟨hrun, ?_⟩
    intro tx hfind
    rw [hrun]
    rw [getTransaction_update_self s h _ rfl tx hfind]
    simp [applyUpdate]
  · intro getTx h M s hpre
    unfold pollTransaction
    exact pollFrom_exhaust getTx h M 0 s (fun j hj => by simpa using hpre j hj)

/-- C5 witness: the spec's own scenario — attempt 1 non-terminal,
attempt 2 Succeeded with value 42 — performs 2 attempts and 1 write and
leaves the record Succeeded; and a 3-attempt run that never sees a
terminal result returns the "Polling timeout" outcome with the store
untouched. -/
theorem C5_poll_law_witness :
    (pollTransaction (fun i => if i = 1 then .success (some 42) else .notFound)
        "tx2" 10 ⟨[⟨"tx2", .other, .pending, 0, "d", none, none⟩]⟩ =
      ⟨⟨true, some (some 42), none⟩,
       updateTransaction ⟨[⟨"tx2", .other, .pending, 0, "d", none, none⟩]⟩
         "tx2"
         { TransactionUpdate.empty with
             status := some .success, result := some (some 42) },
       2, 1⟩) ∧
    ((getTransaction
        (pollTransaction
          (fun i => if i = 1 then .success (some 42) else .notFound)
          "tx2" 10 ⟨[⟨"tx2", .other, .pending, 0, "d", none, none⟩]⟩).store
        "tx2").map (fun r => r.status) = some .success) ∧
    pollTransaction (fun _ => .notFound) "tx9" 3
        ⟨[⟨"tx9", .other, .pending, 0, "d", none, none⟩]⟩ =
      ⟨⟨false, none, some "Polling timeout"⟩,
       ⟨[⟨"tx9", .other, .pending, 0, "d", none, none⟩]⟩, 3, 0⟩ := by
  have hmain := C5_poll_law.1
    (fun i => if i = 1 then .success (some 42) else .notFound)
    "tx2" 10 2 (some 42) ⟨[⟨"tx2", .other, .pending, 0, "d", none, none⟩]⟩
    (by omega) (by omega)
    (by intro j hj; interval_cases j; rfl)
    (by rfl)
  refine ⟨hmain.1, hmain.2 ⟨"tx2", .other, .pending, 0, "d", none, none⟩ rfl, ?_⟩
  exact C5_poll_law.2 (fun _ => .notFound) "tx9" 3
    ⟨[⟨"tx9", .other, .pending, 0, "d", none, none⟩]⟩
    (by intro j hj; rfl)

/-! ## Helper lemmas about the sweep -/

theorem getTransaction_update_of_ne (s : TransactionStore) (h h' : String)
    (u : TransactionUpdate) (hu : u.txHash = none) (hne : h' ≠ h) :
    getTransaction (updateTransaction s h u) h' = getTransaction s h' := by
  rw [getTransaction_update s h h' u hu]
  cases hfind : getTransaction s h' with
  | none => rfl
  | some tx =>
    have hth : tx.txHash = h' := by
      have := List.find?_some hfind
      simpa using this
    simp [hth, hne]

theorem getTransaction_checkOne_ne (getTx : String → GetTxResult)
    (now : Int) (s : TransactionStore) (tx' : Transaction) (h : String)
    (hne : h ≠ tx'.txHash) :
    getTransaction (checkOne getTx now s tx') h = getTransaction s h := by
  unfold checkOne
  cases getTx tx'.txHash with
  | success rv => exact getTransaction_update_of_ne s _ h _ rfl hne
  | failed => exact getTransaction_update_of_ne s _ h _ rfl hne
  | notFound =>
    by_cases hage : 24 < ageInHours now tx'.timestamp
    · rw [if_pos hage]
      exact getTransaction_update_of_ne s _ h _ rfl hne
    · rw [if_neg hage]
  | queryThrew m => rfl

theorem getTransaction_foldl_checkOne_ne (getTx : String → GetTxResult)
    (now : Int) (h : String) :
    ∀ (L : List Transaction) (s : TransactionStore),
      (∀ tx' ∈ L, tx'.txHash ≠ h) →
      getTransaction (L.foldl (checkOne getTx now) s) h =
        getTransaction s h := by
  intro L
  induction L with
  | nil => intro s _; rfl
  | cons a t ih =>
    intro s hall
    have ha : a.txHash ≠ h := hall a (List.mem_cons_self a t)
    rw [List.foldl_cons, ih (checkOne getTx now s a)
      (fun tx' hm => hall tx' (List.mem_cons_of_mem a hm))]
    exact getTransaction_checkOne_ne getTx now s a h (fun hh => ha hh.symm)

theorem find?_of_nodup_mem :
    ∀ (l : List Transaction) (tx : Transaction),
      (l.map Transaction.txHash).Nodup → tx ∈ l →
      l.find? (fun x => x.txHash = tx.txHash) = some tx := by
  intro l
  induction l with
  | nil => intro tx _ hmem; cases hmem
  | cons a t ih =>
    intro tx hnd hmem
    have hnd' := hnd
    rw [List.map_cons, List.nodup_cons] at hnd'
    rcases List.mem_cons.mp hmem with heq | hmem'
    · subst heq
      exact List.find?_cons_of_pos t (by simp)
    · have hane : a.txHash ≠ tx.txHash := by
        intro hcontra
        exact hnd'.1 (hcontra ▸ List.mem_map_of_mem Transaction.txHash hmem')
      rw [List.find?_cons_of_neg t (by simp [hane])]
      exact ih tx hnd'.2 hmem'

/-- The update the sweep classification applies to a pending record. -/
def sweepClass (getTx : String → GetTxResult) (now : Int)
    (tx : Transaction) : Transaction :=
  match getTx tx.txHash with
  | .success rv =>
      applyUpdate tx
        { TransactionUpdate.empty with
            status := some .success, result := some rv }
  | .failed =>
      applyUpdate tx
        { TransactionUpdate.empty with
            status := some .failed,
            error := some (some "Transaction failed on-chain") }
  | .notFound =>
      if 24 < ageInHours now tx.timestamp then
        applyUpdate tx
          { TransactionUpdate.empty with
              status := some .failed,
              error := some (some "Transaction not found (may have expired)") }
      else tx
  | .queryThrew _ => tx

theorem getTransaction_checkOne_self (getTx : String → GetTxResult)
    (now : Int) (s : TransactionStore) (tx : Transaction)
    (hfind : getTransaction s tx.txHash = some tx) :
    getTransaction (checkOne getTx now s tx) tx.txHash =
      some (sweepClass getTx now tx) := by
  unfold checkOne sweepClass
  cases getTx tx.txHash with
  | success rv => exact getTransaction_update_self s _ _ rfl tx hfind
  | failed => exact getTransaction_update_self s _ _ rfl tx hfind
  | notFound =>
    by_cases hage : 24 < ageInHours now tx.timestamp
    · rw [if_pos hage, if_pos hage]
      exact getTransaction_update_self s _ _ rfl tx hfind
    · rw [if_neg hage, if_neg hage]
      exact hfind
  | queryThrew m => exact hfind

theorem sweep_at (getTx : String → GetTxResult) (now : Int)
    (s : TransactionStore) (tx : Transaction)
    (hnd : (s.transactions.map Transaction.txHash).Nodup)
    (hmem : tx ∈ s.transactions) (hpend : tx.status = .pending) :
    getTransaction (checkPendingTransactions getTx now s) tx.txHash =
      some (sweepClass getTx now tx) := by
  unfold checkPendingTransactions
  have hmemP : tx ∈ getPendingTransactions s :=
    List.mem_filter.mpr ⟨hmem, by simp [hpend]⟩
  obtain ⟨L1, L2, hPeq⟩ := List.append_of_mem hmemP
  have hsub : (getPendingTransactions s).Sublist s.transactions :=
    List.filter_sublist _
  have hndP : ((getPendingTransactions s).map Transaction.txHash).Nodup :=
    hnd.sublist (hsub.map _)
  rw [hPeq] at hndP
  rw [List.map_append, List.map_cons, List.nodup_append] at hndP
  have h1 : ∀ t' ∈ L1, t'.txHash ≠ tx.txHash := by
    intro t' hm hcontra
    exact hndP.2.2 (List.mem_map_of_mem Transaction.txHash hm)
      (hcontra ▸ List.mem_cons_self _ _)
  have h2 : ∀ t' ∈ L2, t'.txHash ≠ tx.txHash := by
    intro t' hm hcontra
    have hhd := (List.nodup_cons.mp hndP.2.1).1
    exact hhd (hcontra ▸ List.mem_map_of_mem Transaction.txHash hm)
  rw [hPeq, List.foldl_append, List.foldl_cons]
  rw [getTransaction_foldl_checkOne_ne getTx now tx.txHash L2 _ h2]
  have hfind1 :
      getTransaction (L1.foldl (checkOne getTx now) s) tx.txHash =
        getTransaction s tx.txHash :=
    getTransaction_foldl_checkOne_ne getTx now tx.txHash L1 s h1
  have hfind : getTransaction s tx.txHash = some tx :=
    find?_of_nodup_mem s.transactions tx hnd hmem
  exact getTransaction_checkOne_self getTx now _ tx (hfind1.trans hfind)

/-! ## C6 — sweep reconciliation -/

/-- C6, counterexample. The claim classifies not-found records "at or
above" the 24-hour threshold as Failed. The code's check is strict
(`ageInHours > 24`): a pending record whose age is exactly 24 hours
(timestamp 0, swept at `now = 86400000` ms) with a not-found query
result is left Pending and completely unchanged, where the claim says it
must be marked Failed. -/
theorem C6_sweep_counterexample :
    checkPendingTransactions (fun _ => .notFound) 86400000
        ⟨[⟨"tx1", .other, .pending, 0, "d", none, none⟩]⟩ =
      ⟨[⟨"tx1", .other, .pending, 0, "d", none, none⟩]⟩ ∧
    ageInHours 86400000 0 = 24 := by
  have hage : ¬ ((24 : ℚ) < ageInHours 86400000 0) := by
    norm_num [ageInHours]
  constructor
  · simp [checkPendingTransactions, getPendingTransactions, List.filter,
      checkOne, hage]
  · norm_num [ageInHours]

/-- C6, amended: in a sweep over a store with distinct transaction ids,
each pending record is classified by its upstream query result — a query
returning Succeeded writes Succeeded with the returned value; one
returning Failed writes Failed with the on-chain failure reason; a
not-found record is marked Failed with the "not found (may have
expired)" reason only when its age is *strictly greater* than 24 hours,
and is left Pending and unchanged when its age is at most 24 hours
(boundary included). -/
theorem C6_sweep_classification (getTx : String → GetTxResult) (now : Int)
    (s : TransactionStore) (tx : Transaction)
    (hnd : (s.transactions.map Transaction.txHash).Nodup)
    (hmem : tx ∈ s.transactions) (hpend : tx.status = .pending) :
    (getTx tx.txHash = .notFound → ¬ 24 < ageInHours now tx.timestamp →
      getTransaction (checkPendingTransactions getTx now s) tx.txHash =
        some tx) ∧
    (getTx tx.txHash = .notFound → 24 < ageInHours now tx.timestamp →
      getTransaction (checkPendingTransactions getTx now s) tx.txHash =
        some { tx with
                 status := .failed,
                 error := some "Transaction not found (may have expired)" }) ∧
    (∀ rv, getTx tx.txHash = .success rv →
      getTransaction (checkPendingTransactions getTx now s) tx.txHash =
        some { tx with status := .success, result := rv }) ∧
    (getTx tx.txHash = .failed →
      getTransaction (checkPendingTransactions getTx now s) tx.txHash =
        some { tx with
                 status := .failed,
                 error := some "Transaction failed on-chain" }) := by
  have hat := sweep_at getTx now s tx hnd hmem hpend
  refine ⟨?_, ?_, ?_, ?_⟩
  · intro hq hage
    rw [hat]
    unfold sweepClass
    rw [hq, if_neg hage]
  · intro hq hage
    rw [hat]
    unfold sweepClass
    rw [hq, if_pos hage]
    cases tx
    simp [applyUpdate, TransactionUpdate.empty]
  · intro rv hq
    rw [hat]
    unfold sweepClass
    rw [hq]
    cases tx
    simp [applyUpdate, TransactionUpdate.empty]
  · intro hq
    rw [hat]
    unfold sweepClass
    rw [hq]
    cases tx
    simp [applyUpdate, TransactionUpdate.empty]

/-- C6 witness: the spec's own scenario. A pending record submitted at
`t = 0` swept with a not-found result at `t = 0` stays Pending; swept
again at `t = 25 h = 90000000 ms` (now strictly over the threshold) it
becomes Failed with the expired/not-found reason; and a sweep whose
query returns Succeeded writes the outcome. -/
theorem C6_sweep_classification_witness :
    (getTransaction
        (checkPendingTransactions (fun _ => .notFound) 0
          ⟨[⟨"tx1", .other, .pending, 0, "d", none, none⟩]⟩) "tx1" =
      some ⟨"tx1", .other, .pending, 0, "d", none, none⟩) ∧
    (getTransaction
        (checkPendingTransactions (fun _ => .notFound) 90000000
          ⟨[⟨"tx1", .other, .pending, 0, "d", none, none⟩]⟩) "tx1" =
      some ⟨"tx1", .other, .failed, 0, "d", none,
        some "Transaction not found (may have expired)"⟩) ∧
    (getTransaction
        (checkPendingTransactions (fun _ => .success (some 42)) 0
          ⟨[⟨"tx1", .other, .pending, 0, "d", none, none⟩]⟩) "tx1" =
      some ⟨"tx1", .other, .success, 0, "d", some 42, none⟩) := by
  refine ⟨?_, ?_, ?_⟩
  · exact (C6_sweep_classification (fun _ => .notFound) 0
      ⟨[⟨"tx1", .other, .pending, 0, "d", none, none⟩]⟩
      ⟨"tx1", .other, .pending, 0, "d", none, none⟩
      (by decide) (by decide) rfl).1 rfl
      (by norm_num [ageInHours])
  · exact (C6_sweep_classification (fun _ => .notFound) 90000000
      ⟨[⟨"tx1", .other, .pending, 0, "d", none, none⟩]⟩
      ⟨"tx1", .other, .pending, 0, "d", none, none⟩
      (by decide) (by decide) rfl).2.1 rfl
      (by norm_num [ageInHours])
  · exact (C6_sweep_classification (fun _ => .success (some 42)) 0
      ⟨[⟨"tx1", .other, .pending, 0, "d", none, none⟩]⟩
      ⟨"tx1", .other, .pending, 0, "d", none, none⟩
      (by decide) (by decide) rfl).2.2.1 (some 42) rfl

/-! ## Helper lemmas about the notifier -/

theorem NotifierMap.get_set (m : NotifierMap) (h : String)
    (st : TransactionStatus) (h' : String) :
    NotifierMap.get (m.set h st) h' =
      if h = h' then some st else NotifierMap.get m h' := by
  by_cases heq : h = h'
  · simp [NotifierMap.get, NotifierMap.set, List.find?, heq]
  · simp [NotifierMap.get, NotifierMap.set, List.find?, heq]

theorem flatMap_congr_mem {α β : Type} (l : List α) (f g : α → List β)
    (hfg : ∀ a ∈ l, f a = g a) : l.flatMap f = l.flatMap g := by
  induction l with
  | nil => rfl
  | cons a t ih =>
    rw [List.flatMap_cons, List.flatMap_cons,
      hfg a (List.mem_cons_self a t),
      ih (fun x hx => hfg x (List.mem_cons_of_mem a hx))]

theorem notifyStep_acc (notifs : List TxNotification) (m : NotifierMap)
    (tx : Transaction) :
    notifyStep (notifs, m) tx =
      (notifs ++ (notifyStep ([], m) tx).1, (notifyStep ([], m) tx).2) := by
  by_cases hc : NotifierMap.get m tx.txHash = some .pending ∧
      tx.status ≠ .pending
  · simp [notifyStep, hc]
  · simp [notifyStep, hc]

theorem notifyScan_acc (txs : List Transaction) :
    ∀ (notifs : List TxNotification) (m : NotifierMap),
      txs.foldl notifyStep (notifs, m) =
        (notifs ++ (notifyScan m txs).1, (notifyScan m txs).2) := by
  induction txs with
  | nil => intro notifs m; simp [notifyScan]
  | cons tx rest ih =>
    intro notifs m
    rw [List.foldl_cons, notifyStep_acc notifs m tx]
    rw [ih (notifs ++ (notifyStep ([], m) tx).1) (notifyStep ([], m) tx).2]
    have hscan : notifyScan m (tx :: rest) =
        ((notifyStep ([], m) tx).1 ++
          (notifyScan (notifyStep ([], m) tx).2 rest).1,
         (notifyScan (notifyStep ([], m) tx).2 rest).2) := by
      unfold notifyScan
      rw [List.foldl_cons]
      have := ih (notifyStep ([], m) tx).1 (notifyStep ([], m) tx).2
      rw [show notifyStep ([], m) tx =
            ((notifyStep ([], m) tx).1, (notifyStep ([], m) tx).2) from rfl]
      rw [this]
      rfl
    rw [hscan, List.append_assoc]

theorem notifyScan_cons (m : NotifierMap) (tx : Transaction)
    (rest : List Transaction) :
    notifyScan m (tx :: rest) =
      ((notifyStep ([], m) tx).1 ++
        (notifyScan (m.set tx.txHash tx.status) rest).1,
       (notifyScan (m.set tx.txHash tx.status) rest).2) := by
  unfold notifyScan
  rw [List.foldl_cons]
  have hstep : notifyStep ([], m) tx =
      ((notifyStep ([], m) tx).1, m.set tx.txHash tx.status) := by
    simp [notifyStep]
  rw [hstep, notifyScan_acc]
  rfl

theorem notifyScan_map_untouched :
    ∀ (txs : List Transaction) (m : NotifierMap) (h : String),
      h ∉ txs.map Transaction.txHash →
      NotifierMap.get (notifyScan m txs).2 h = NotifierMap.get m h := by
  intro txs
  induction txs with
  | nil => intro m h _; rfl
  | cons tx rest ih =>
    intro m h hnot
    rw [List.map_cons] at hnot
    have hne : tx.txHash ≠ h := fun hc => hnot (hc ▸ List.mem_cons_self _ _)
    have hrest : h ∉ rest.map Transaction.txHash :=
      fun hc => hnot (List.mem_cons_of_mem _ hc)
    rw [notifyScan_cons, ih (m.set tx.txHash tx.status) h hrest,
      NotifierMap.get_set, if_neg hne]

theorem notifyScan_get :
    ∀ (txs : List Transaction) (m : NotifierMap) (tx : Transaction),
      (txs.map Transaction.txHash).Nodup → tx ∈ txs →
      NotifierMap.get (notifyScan m txs).2 tx.txHash = some tx.status := by
  intro txs
  induction txs with
  | nil => intro m tx _ hmem; cases hmem
  | cons a rest ih =>
    intro m tx hnd hmem
    rw [List.map_cons, List.nodup_cons] at hnd
    rw [notifyScan_cons]
    rcases List.mem_cons.mp hmem with heq | hmem'
    · subst heq
      rw [notifyScan_map_untouched rest _ tx.txHash hnd.1,
        NotifierMap.get_set, if_pos rfl]
    · exact ih (m.set a.txHash a.status) tx hnd.2 hmem'

theorem notifyScan_stable :
    ∀ (txs : List Transaction) (m : NotifierMap),
      (∀ tx ∈ txs, NotifierMap.get m tx.txHash = some tx.status) →
      (notifyScan m txs).1 = [] := by
  intro txs
  induction txs with
  | nil => intro m _; rfl
  | cons tx rest ih =>
    intro m hall
    rw [notifyScan_cons]
    have hget : NotifierMap.get m tx.txHash = some tx.status :=
      hall tx (List.mem_cons_self _ _)
    have hstep : (notifyStep ([], m) tx).1 = [] := by
      by_cases hc : NotifierMap.get m tx.txHash = some .pending ∧
          tx.status ≠ .pending
      · exfalso
        have : tx.status = .pending := by
          have := hc.1
          rw [hget] at this
          exact (Option.some.inj this).symm ▸ rfl
        exact hc.2 this
      · simp [notifyStep, hc]
    have hrest : ∀ tx' ∈ rest,
        NotifierMap.get (m.set tx.txHash tx.status) tx'.txHash =
          some tx'.status := by
      intro tx' hm
      rw [NotifierMap.get_set]
      by_cases heq : tx.txHash = tx'.txHash
      · rw [if_pos heq]
        have h1 := hall tx' (List.mem_cons_of_mem _ hm)
        rw [← heq, hget] at h1
        exact h1.symm ▸ rfl
      · rw [if_neg heq]
        exact hall tx' (List.mem_cons_of_mem _ hm)
    rw [hstep, ih (m.set tx.txHash tx.status) hrest]
    rfl

theorem notifyScan_flatMap :
    ∀ (txs : List Transaction) (m : NotifierMap),
      (txs.map Transaction.txHash).Nodup →
      (notifyScan m txs).1 = txs.flatMap (fun tx =>
        if NotifierMap.get m tx.txHash = some .pending ∧
            tx.status ≠ .pending then
          mkNotification tx
        else []) := by
  intro txs
  induction txs with
  | nil => intro m _; rfl
  | cons tx rest ih =>
    intro m hnd
    rw [List.map_cons, List.nodup_cons] at hnd
    rw [notifyScan_cons, List.flatMap_cons, ih _ hnd.2]
    have hrw : rest.flatMap (fun tx' =>
        if NotifierMap.get (m.set tx.txHash tx.status) tx'.txHash =
            some .pending ∧ tx'.status ≠ .pending then
          mkNotification tx'
        else []) = rest.flatMap (fun tx' =>
        if NotifierMap.get m tx'.txHash = some .pending ∧
            tx'.status ≠ .pending then
          mkNotification tx'
        else []) := by
      apply flatMap_congr_mem
      intro tx' hm
      have hne : tx.txHash ≠ tx'.txHash := fun hc =>
        hnd.1 (hc ▸ List.mem_map_of_mem Transaction.txHash hm)
      rw [NotifierMap.get_set, if_neg hne]
    rw [hrw]
    congr 1

/-! ## C9 — notify exactly once per transition -/

/-- C9: over a store snapshot with distinct transaction ids, one run of
the notifier effect emits notifications for exactly those records whose
previously observed status was Pending and whose current status differs
(one notification each — success or error, carrying the description);
afterwards every scanned record's current status is recorded as
last-observed; consequently re-scanning the very same snapshot emits
nothing at all, so no transition is ever notified twice. -/
theorem C9_notify_once (txs : List Transaction) (prev : NotifierMap)
    (hnd : (txs.map Transaction.txHash).Nodup) :
    ((notifyScan prev txs).1 = txs.flatMap (fun tx =>
        if NotifierMap.get prev tx.txHash = some .pending ∧
            tx.status ≠ .pending then
          mkNotification tx
        else [])) ∧
    (∀ tx, tx.status ≠ .pending → (mkNotification tx).length = 1) ∧
    (∀ tx ∈ txs,
      NotifierMap.get (notifyScan prev txs).2 tx.txHash = some tx.status) ∧
    ((notifyScan (notifyScan prev txs).2 txs).1 = []) := by
  refine ⟨notifyScan_flatMap txs prev hnd, ?_, ?_, ?_⟩
  · intro tx hnp
    cases hst : tx.status with
    | pending => exact absurd hst hnp
    | success => simp [mkNotification, hst]
    | failed => simp [mkNotification, hst]
  · intro tx hm
    exact notifyScan_get txs prev tx hnd hm
  · exact notifyScan_stable txs (notifyScan prev txs).2
      (fun tx hm => notifyScan_get txs prev tx hnd hm)

/-- C9 witness: a single record `"a"` last observed Pending and now
Succeeded produces exactly one success notification carrying its
description, the map then records Succeeded, and re-scanning the same
snapshot emits nothing. -/
theorem C9_notify_once_witness :
    (notifyScan [("a", .pending)]
        [⟨"a", .other, .success, 0, "da", none, none⟩]).1 =
      [⟨"success", "Transaction completed: da"⟩] ∧
    NotifierMap.get
        (notifyScan [("a", .pending)]
          [⟨"a", .other, .success, 0, "da", none, none⟩]).2 "a" =
      some .success ∧
    (notifyScan
        (notifyScan [("a", .pending)]
          [⟨"a", .other, .success, 0, "da", none, none⟩]).2
        [⟨"a", .other, .success, 0, "da", none, none⟩]).1 = [] := by
  have h := C9_notify_once [⟨"a", .other, .success, 0, "da", none, none⟩]
    [("a", .pending)] (by decide)
  refine ⟨?_, ?_, h.2.2.2⟩
  · rw [h.1]
    rfl
  · exact h.2.2.1 ⟨"a", .other, .success, 0, "da", none, none⟩
      (List.mem_cons_self _ _)

/-! ## Helper lemmas about the submitter -/

theorem getTransaction_add (s : TransactionStore) (ntx : NewTransaction)
    (now : Int) :
    getTransaction (addTransaction s ntx now) ntx.txHash =
      some ⟨ntx.txHash, ntx.type, ntx.status, now, ntx.description,
        ntx.result, ntx.error⟩ := by
  simp [getTransaction, addTransaction, List.find?]

theorem callPoll_txHash_of_no_throw (env : ContractEnv) (h : String) :
    ∀ (rem i : Nat) (s : TransactionStore),
      (∀ j, j < rem → ∀ m, env.getTx (i + j) ≠ .queryThrew m) →
      (callPoll env h s i rem).1.txHash = some h := by
  intro rem
  induction rem with
  | zero => intro i s _; rfl
  | succ r ih =>
    intro i s hno
    cases hg : env.getTx i with
    | success rv => simp [callPoll, hg]
    | failed => simp [callPoll, hg]
    | notFound =>
      simp only [callPoll, hg]
      exact ih (i + 1) s (fun j hj m => by
        have := hno (j + 1) (by omega) m
        simpa [Nat.add_assoc, Nat.add_comm 1 j] using this)
    | queryThrew m =>
      exfalso
      have := hno 0 (by omega) m
      rw [Nat.add_zero] at this
      exact this hg

theorem callPoll_preserves (env : ContractEnv) (h : String) :
    ∀ (rem i : Nat) (s : TransactionStore) (tx : Transaction),
      getTransaction s h = some tx →
      ∃ tx', getTransaction (callPoll env h s i rem).2.1 h = some tx' ∧
        tx'.txHash = tx.txHash := by
  intro rem
  induction rem with
  | zero => intro i s tx hfind; exact ⟨tx, hfind, rfl⟩
  | succ r ih =>
    intro i s tx hfind
    cases hg : env.getTx i with
    | success rv =>
      refine ⟨applyUpdate tx
        { TransactionUpdate.empty with
            status := some .success,
            result := some (rv.map scValToNative) }, ?_,
        applyUpdate_txHash tx _ rfl⟩
      simp only [callPoll, hg]
      exact getTransaction_update_self s h _ rfl tx hfind
    | failed =>
      refine ⟨applyUpdate tx
        { TransactionUpdate.empty with
            status := some .failed,
            error := some (some "Transaction failed on-chain") }, ?_,
        applyUpdate_txHash tx _ rfl⟩
      simp only [callPoll, hg]
      exact getTransaction_update_self s h _ rfl tx hfind
    | notFound =>
      simp only [callPoll, hg]
      exact ih (i + 1) s tx hfind
    | queryThrew m =>
      simp only [callPoll, hg]
      exact ⟨tx, hfind, rfl⟩

theorem callPoll_no_addRecord (env : ContractEnv) (h : String) :
    ∀ (rem i : Nat) (s : TransactionStore),
      ∀ e ∈ (callPoll env h s i rem).2.2, ∀ h', e ≠ .addRecord h' := by
  intro rem
  induction rem with
  | zero => intro i s e he; cases he
  | succ r ih =>
    intro i s e he h'
    cases hg : env.getTx i with
    | success rv =>
      simp only [callPoll, hg, List.mem_cons, List.not_mem_nil, or_false] at he
      rcases he with rfl | rfl
      · simp
      · simp
    | failed =>
      simp only [callPoll, hg, List.mem_cons, List.not_mem_nil, or_false] at he
      rcases he with rfl | rfl
      · simp
      · simp
    | notFound =>
      simp only [callPoll, hg, List.mem_cons] at he
      rcases he with rfl | hmem
      · simp
      · exact ih (i + 1) s e hmem h'
    | queryThrew m =>
      simp only [callPoll, hg, List.mem_cons, List.not_mem_nil, or_false] at he
      subst he
      simp

/-! ## C4 — submitter ordering and error behavior -/

/-- C4, counterexample. The claim states that whenever a transaction id
is obtained, the id is returned to the caller. With every pre-submission
step succeeding and `sendTransaction` returning hash `"h9"`, a polling
query that throws (`"network down"`) escapes to `callContract`'s outer
`catch`, which returns `{ success: false, error: err.message }` with
*no* `txHash` — even though the id was obtained, the Pending record was
created (the trace starts with it), and it is still in the store. -/
theorem C4_submit_counterexample :
    (callContract
        ⟨.ok (), .simOk, .ok (), fun _ => .queryThrew "network down",
          .sendOk "h9"⟩
        ⟨"m", "src", none, none⟩ 5 ⟨[]⟩).result.txHash = none ∧
    (callContract
        ⟨.ok (), .simOk, .ok (), fun _ => .queryThrew "network down",
          .sendOk "h9"⟩
        ⟨"m", "src", none, none⟩ 5 ⟨[]⟩).trace.head? =
      some (.addRecord "h9") ∧
    ((getTransaction
        (callContract
          ⟨.ok (), .simOk, .ok (), fun _ => .queryThrew "network down",
            .sendOk "h9"⟩
          ⟨"m", "src", none, none⟩ 5 ⟨[]⟩).store "h9").map
      (fun tx => tx.status)) = some .pending := by
  refine ⟨rfl, rfl, rfl⟩

/-- C4, amended: if the remote call fails before a transaction id is
obtained (account fetch throws, simulation reports an error, signing
throws, or submission is rejected), `callContract` returns an error
result with no id and the transaction store is left unchanged, with no
record created. If a transaction id is obtained, a Pending record with
that id is added to the store before any confirmation polling begins
(the trace starts with the record creation and contains no later record
creation), a record with that id is still present when the call returns,
and the id is returned to the caller provided no polling query throws —
a thrown query during polling is caught by the outer handler and
surfaced as a plain error without the id (while the Pending record
remains in the store). -/
theorem C4_submit_law :
    (∀ (env : ContractEnv) (opts : ContractCallOptions) (now : Int)
      (s : TransactionStore) (msg : String), env.getAccount = .error msg →
      (callContract env opts now s).store = s ∧
      (callContract env opts now s).trace = [] ∧
      (callContract env opts now s).result.txHash = none ∧
      (callContract env opts now s).result.success = false) ∧
    (∀ (env : ContractEnv) (opts : ContractCallOptions) (now : Int)
      (s : TransactionStore) (e : String), env.getAccount = .ok () →
      env.simulate = .simError e →
      (callContract env opts now s).store = s ∧
      (callContract env opts now s).trace = [] ∧
      (callContract env opts now s).result.txHash = none ∧
      (callContract env opts now s).result.success = false) ∧
    (∀ (env : ContractEnv) (opts : ContractCallOptions) (now : Int)
      (s : TransactionStore) (msg : String), env.getAccount = .ok () →
      env.simulate = .simOk → env.sign = .error msg →
      (callContract env opts now s).store = s ∧
      (callContract env opts now s).trace = [] ∧
      (callContract env opts now s).result.txHash = none ∧
      (callContract env opts now s).result.success = false) ∧
    (∀ (env : ContractEnv) (opts : ContractCallOptions) (now : Int)
      (s : TransactionStore), env.getAccount = .ok () →
      env.simulate = .simOk → env.sign = .ok () →
      env.send = .sendError →
      (callContract env opts now s).store = s ∧
      (callContract env opts now s).trace = [] ∧
      (callContract env opts now s).result.txHash = none ∧
      (callContract env opts now s).result.success = false) ∧
    (∀ (env : ContractEnv) (opts : ContractCallOptions) (now : Int)
      (s : TransactionStore) (h : String), env.getAccount = .ok () →
      env.simulate = .simOk → env.sign = .ok () → env.send = .sendOk h →
      (∃ rest, (callContract env opts now s).trace = .addRecord h :: rest ∧
        ∀ e ∈ rest, ∀ h', e ≠ .addRecord h') ∧
      (∃ tx', getTransaction (callContract env opts now s).store h =
          some tx' ∧ tx'.txHash = h) ∧
      ((∀ j, j < 10 → ∀ m, env.getTx j ≠ .queryThrew m) →
        (callContract env opts now s).result.txHash = some h)) := by
  refine ⟨?_, ?_, ?_, ?_, ?_⟩
  · intro env opts now s msg hacc
    simp [callContract, hacc]
  · intro env opts now s e hacc hsim
    simp [callContract, hacc, hsim]
  · intro env opts now s msg hacc hsim hsign
    simp [callContract, hacc, hsim, hsign]
  · intro env opts now s hacc hsim hsign hsend
    simp [callContract, hacc, hsim, hsign, hsend]
  · intro env opts now s h hacc hsim hsign hsend
    have hcc : callContract env opts now s =
        ⟨(callPoll env h
            (addTransaction s
              { txHash := h, type := opts.txType.getD .other,
                status := .pending,
                description := orFalsy opts.description
                  (opts.method ++ " on contract"),
                result := none, error := none } now) 0 10).1,
         (callPoll env h
            (addTransaction s
              { txHash := h, type := opts.txType.getD .other,
                status := .pending,
                description := orFalsy opts.description
                  (opts.method ++ " on contract"),
                result := none, error := none } now) 0 10).2.1,
         CallEvent.addRecord h ::
           (callPoll env h
            (addTransaction s
              { txHash := h, type := opts.txType.getD .other,
                status := .pending,
                description := orFalsy opts.description
                  (opts.method ++ " on contract"),
                result := none, error := none } now) 0 10).2.2⟩ := by
      simp [callContract, hacc, hsim, hsign, hsend]
    refine ⟨?_, ?_, ?_⟩
    · rw [hcc]
      refine ⟨_, rfl, ?_⟩
      exact callPoll_no_addRecord env h 10 0 _
    · rw [hcc]
      have hfind := getTransaction_add s
        { txHash := h, type := opts.txType.getD .other, status := .pending,
          description := orFalsy opts.description
            (opts.method ++ " on contract"),
          result := none, error := none } now
      obtain ⟨tx', htx', hh⟩ := callPoll_preserves env h 10 0 _ _ hfind
      exact ⟨tx', htx', hh⟩
    · intro hno
      rw [hcc]
      exact callPoll_txHash_of_no_throw env h 10 0 _
        (fun j hj m => by simpa using hno j hj m)

/-- C4 witness: with every remote step succeeding, hash `"h7"` obtained
and every poll returning not-found (no throw), the returned result
carries `txHash = "h7"`, and the trace starts with the record creation;
and an account-fetch failure leaves the empty store empty. -/
theorem C4_submit_law_witness :
    ((callContract ⟨.ok (), .simOk, .ok (), fun _ => .notFound,
          .sendOk "h7"⟩
        ⟨"m", "src", none, none⟩ 5 ⟨[]⟩).result.txHash = some "h7") ∧
    ((callContract ⟨.error "no account", .simOk, .ok (),
          fun _ => .notFound, .sendOk "h7"⟩
        ⟨"m", "src", none, none⟩ 5 ⟨[]⟩).store = ⟨[]⟩) := by
  constructor
  · exact (C4_submit_law.2.2.2.2
      ⟨.ok (), .simOk, .ok (), fun _ => .notFound, .sendOk "h7"⟩
      ⟨"m", "src", none, none⟩ 5 ⟨[]⟩ "h7" rfl rfl rfl rfl).2.2
      (by intro j hj m; simp)
  · exact (C4_submit_law.1
      ⟨.error "no account", .simOk, .ok (), fun _ => .notFound,
        .sendOk "h7"⟩
      ⟨"m", "src", none, none⟩ 5 ⟨[]⟩ "no account" rfl).1

end PulsarTrack
